import Mathlib

/-! # go-fs-timeline: the event capture and buffering pipeline

A shallow embedding of `pkg/watcher/watcher.go` (classifier, buffer, flush
pipeline, dispatch loop) together with the parts of the Go standard library
and of `fsnotify` that the watcher calls, of `QueryEvents` of
`pkg/database/database.go`, and of the reversal that `cmd/query.go` and
`cmd/export.go` apply to its result.

Conventions of the embedding:

* Go strings are Lean `String`s and are scanned character by character.  The
  only bytes the scanned functions look for are `'/'` and `'.'`; both are
  ASCII, so scanning bytes and scanning characters cut a string at the same
  places.
* `path/filepath` is the Unix flavour: the separator is `'/'` and volume
  names are empty.
* `fsnotify.Op` is a `uint32` bit mask, modelled as a `Nat`; only `&` is
  applied to it, so no wrap-around can occur.
* The wall clock (`time.Now()`), the outcome of `db.InsertEvents` and the case
  picked by `select` are inputs of the model.  Everything the watcher does to
  the outside (calls of `InsertEvents`, lines printed) is recorded in the
  state, oldest first.
* `Watch` is its ticker (`time.NewTicker` panics on an interval that is not
  positive) followed by its loop, `watchLoop`; the ticks themselves are inputs.
* The model is sequential: it follows the single goroutine running `Watch`;
  `bufferMu` is therefore not represented.
* The table `events` is the list of its rows, oldest first.  A row carries the
  text that the driver wrote into the column `timestamp` (the wall clock
  reading with its zone offset); SQLite compares and orders that text, not the
  instant it stands for.  `LIKE` is the operator of SQLite with its defaults.
  A slice index out of range is the result `none`.
-/

namespace FsTimeline

/-! ## fsnotify -/

namespace fsnotify

/-- Operation flag `Create Op = 1 << iota`. -/
def Create : Nat := 1
/-- Operation flag `Write`. -/
def Write : Nat := 2
/-- Operation flag `Remove`. -/
def Remove : Nat := 4
/-- Operation flag `Rename`. -/
def Rename : Nat := 8
/-- Operation flag `Chmod`. -/
def Chmod : Nat := 16

/-- The raw notification `fsnotify.Event`: a path and a mask of operation flags. -/
structure Event where
  Name : String
  Op : Nat
  deriving DecidableEq, Repr

end fsnotify

/-! ## path/filepath and strings (Unix) -/

namespace filepath

/-- The function `os.IsPathSeparator` on Unix. -/
def IsPathSeparator (c : Char) : Bool := c == '/'

/-- The loop of `filepath.Ext`, walking the name from its last byte towards
its first; `acc` is the part of the name to the right of the current byte. -/
def extScan : List Char → List Char → List Char
  | [], _ => []
  | c :: rest, acc =>
    if IsPathSeparator c then []
    else if c = '.' then c :: acc
    else extScan rest (c :: acc)

/-- The function `filepath.Ext`: the suffix beginning at the final dot of the
final element of `path`, empty if there is no dot. -/
def Ext (path : String) : String :=
  String.mk (extScan path.data.reverse [])

/-- The function `filepath.Base`: the last element of `path`, trailing
separators removed first; `"."` for the empty path and `"/"` for a path made
of separators only. -/
def Base (path : String) : String :=
  if path = "" then "."
  else
    -- strip trailing slashes
    let stripped := path.data.reverse.dropWhile IsPathSeparator
    -- find the last element
    let last := (stripped.takeWhile (fun c => !IsPathSeparator c)).reverse
    -- if empty now, it had only slashes
    if last = [] then "/" else String.mk last

/-- The inner loop of the `..` case of `filepath.Clean`, entered after the
first `out.w--`: `c` is `out.index(out.w)`, the list is the buffer below
`out.w`, last byte first. -/
def backtrack (dotdot : Nat) (c : Char) : List Char → List Char
  | [] => []
  | c1 :: buf =>
    if (c1 :: buf).length > dotdot && !IsPathSeparator c then backtrack dotdot c1 buf
    else c1 :: buf

/-- The main loop of `filepath.Clean`.  `rest` is `path[r:]`, `out` is the
output buffer `buf[:w]` with its last byte first, and the first argument
bounds the number of iterations (every iteration consumes a byte of `rest`). -/
def cleanLoop (rooted : Bool) : Nat → List Char → List Char → Nat → List Char
  | 0, _, out, _ => out
  | fuel + 1, rest, out, dotdot =>
    match rest with
    | [] => out
    | c :: t =>
      if IsPathSeparator c then
        -- empty path element
        cleanLoop rooted fuel t out dotdot
      else if c = '.' && (t.isEmpty || (t.head?.map IsPathSeparator).getD false) then
        -- . element
        cleanLoop rooted fuel t out dotdot
      else if c = '.' && t.head? = some '.' &&
          (t.tail.isEmpty || (t.tail.head?.map IsPathSeparator).getD false) then
        -- .. element: remove to last separator
        match out with
        | o :: below =>
          if (o :: below).length > dotdot then
            -- can backtrack
            cleanLoop rooted fuel t.tail (backtrack dotdot o below) dotdot
          else if !rooted then
            let out2 := '.' :: '.' :: '/' :: o :: below
            cleanLoop rooted fuel t.tail out2 out2.length
          else cleanLoop rooted fuel t.tail (o :: below) dotdot
        | [] =>
          if !rooted then
            -- cannot backtrack, but not rooted, so append .. element
            cleanLoop rooted fuel t.tail ['.', '.'] 2
          else cleanLoop rooted fuel t.tail [] dotdot
      else
        -- real path element: add slash if needed, copy element
        let out1 :=
          if (rooted && out.length != 1) || (!rooted && out.length != 0) then '/' :: out
          else out
        let elem := (c :: t).takeWhile (fun x => !IsPathSeparator x)
        cleanLoop rooted fuel ((c :: t).dropWhile (fun x => !IsPathSeparator x))
          (elem.reverse ++ out1) dotdot

/-- The function `filepath.Clean`: the shortest path name equivalent to `path`
by purely lexical processing. -/
def Clean (path : String) : String :=
  match path.data with
  | [] => "."
  | c :: t =>
    let rooted := IsPathSeparator c
    let out :=
      if rooted then cleanLoop rooted (t.length + 1) t ['/'] 1
      else cleanLoop rooted (t.length + 2) (c :: t) [] 0
    -- turn empty string into "."
    if out = [] then "." else String.mk out.reverse

/-- The function `filepath.Dir`: all but the last element of `path`, cleaned. -/
def Dir (path : String) : String :=
  Clean (String.mk (path.data.reverse.dropWhile (fun c => !IsPathSeparator c)).reverse)

end filepath

namespace strings

/-- The function `strings.TrimPrefix`: `s` without the leading `pre`, or `s`
itself if it does not start with `pre`. -/
def TrimPrefix (s pre : String) : String :=
  if pre.data.isPrefixOf s.data then String.mk (s.data.drop pre.data.length) else s

end strings

/-! ## pkg/database: the record handed to the store -/

namespace database

/-- The struct `database.Event`.  `Timestamp` is an instant of the wall clock. -/
structure Event where
  ID : Int
  Timestamp : Nat
  EventType : String
  FilePath : String
  FileName : String
  FileType : String
  Directory : String
  deriving DecidableEq, Repr

/-- The store as the watcher sees it: the outcome of `db.InsertEvents` for a
batch, `none` for a nil error and `some err` for a failure.  The outcome may
depend on the batches submitted before. -/
structure DB where
  InsertEvents : List (List Event) → List Event → Option String

end database

/-! ## pkg/watcher -/

namespace watcher

/-- The fields of the struct `Watcher` that the dispatch loop reads or writes
(`fsWatcher`, `db` and `bufferMu` are the environment of the model). -/
structure Watcher where
  eventBuffer : List database.Event
  flushInterval : Int
  maxBufferSize : Int
  deriving DecidableEq, Repr

/-- A line written to standard output by the watcher. -/
inductive Report where
  /-- Line `[INFO] Flushed %d events to database`. -/
  | flushed (n : Nat)
  /-- Line `[ERROR] Failed to flush %d events to database: %v`. -/
  | flushFailed (n : Nat) (err : String)
  /-- Line `[ERROR] File system watcher error: %v`. -/
  | watcherError (err : String)
  deriving DecidableEq, Repr

/-- The watcher together with the record of what it has done to the outside:
`inserted` lists the batches passed to `db.InsertEvents`, `reports` the lines
printed, both oldest first. -/
structure State where
  w : Watcher
  inserted : List (List database.Event)
  reports : List Report
  deriving DecidableEq, Repr

/-- The function `New`.  `fsErr` is the error of `fsnotify.NewWatcher()`, if
any; `make` panics on a negative capacity. -/
def New (fsErr : Option String) (flushInterval : Int) (maxBufferSize : Int) :
    Except String Watcher :=
  match fsErr with
  | some err => .error ("failed to create fs watcher: " ++ err)
  | none =>
    if maxBufferSize < 0 then .error "panic: makeslice: cap out of range"
    else .ok { eventBuffer := [], flushInterval := flushInterval, maxBufferSize := maxBufferSize }

/-- The state in which a watcher starts: nothing inserted or printed yet. -/
def State.start (w : Watcher) : State :=
  { w := w, inserted := [], reports := [] }

/-- The method `getEventType`. -/
def getEventType (op : Nat) : String :=
  if op &&& fsnotify.Create = fsnotify.Create then "CREATE"
  else if op &&& fsnotify.Write = fsnotify.Write then "WRITE"
  else if op &&& fsnotify.Remove = fsnotify.Remove then "REMOVE"
  else if op &&& fsnotify.Rename = fsnotify.Rename then "RENAME"
  else if op &&& fsnotify.Chmod = fsnotify.Chmod then "CHMOD"
  else "UNKNOWN"

/-- The method `getFileType`. -/
def getFileType (fileName : String) : String :=
  let ext := filepath.Ext fileName
  if ext = "" then "no-extension"
  else strings.TrimPrefix ext "."

/-- The method `flush`. -/
def flush (db : database.DB) (s : State) : State :=
  if s.w.eventBuffer.length = 0 then s
  else
    let events := s.w.eventBuffer
    let w1 : Watcher := { s.w with eventBuffer := [] }
    match db.InsertEvents s.inserted events with
    | some err =>
      { w := w1, inserted := s.inserted ++ [events],
        reports := s.reports ++ [Report.flushFailed events.length err] }
    | none =>
      { w := w1, inserted := s.inserted ++ [events],
        reports := s.reports ++ [Report.flushed events.length] }

/-- The record built by `handleEvent` (its first statements, up to the struct
literal); `now` is the value of `time.Now()`. -/
def classify (fsEvent : fsnotify.Event) (now : Nat) : database.Event :=
  let eventType := getEventType fsEvent.Op
  let fileName := filepath.Base fsEvent.Name
  let directory := filepath.Dir fsEvent.Name
  let fileType := getFileType fileName
  { ID := 0
    Timestamp := now
    EventType := eventType
    FilePath := fsEvent.Name
    FileName := fileName
    FileType := fileType
    Directory := directory }

/-- The statement `w.eventBuffer = append(w.eventBuffer, event)` of
`handleEvent`. -/
def appendEvent (event : database.Event) (s : State) : State :=
  { s with w := { s.w with eventBuffer := s.w.eventBuffer ++ [event] } }

/-- The method `handleEvent`. -/
def handleEvent (db : database.DB) (fsEvent : fsnotify.Event) (now : Nat) (s : State) : State :=
  let event := classify fsEvent now
  let s1 := appendEvent event s
  let shouldFlush : Bool := decide ((s1.w.eventBuffer.length : Int) ≥ s1.w.maxBufferSize)
  if shouldFlush then flush db s1 else s1

/-- The method `Close`, up to the closing of the notification source. -/
def Close (db : database.DB) (s : State) : State :=
  flush db s

/-- The case taken by one `select` of the loop of `Watch`, with the values
received. -/
inductive Select where
  /-- Case `<-ctx.Done()`. -/
  | ctxDone
  /-- Case `event, ok := <-w.fsWatcher.Events`; `now` is the clock reading
  used if the event is handled. -/
  | events (event : fsnotify.Event) (ok : Bool) (now : Nat)
  /-- Case `err, ok := <-w.fsWatcher.Errors`. -/
  | errors (err : String) (ok : Bool)
  /-- Case `<-ticker.C`. -/
  | tick
  deriving DecidableEq, Repr

/-- Where `Watch` stands once the given cases are consumed: still waiting in
`select`, returned with the given error (`none` is `nil`), or stopped by a
panic. -/
inductive Outcome where
  | waiting
  | returned (err : Option String)
  | panicked (msg : String)
  deriving DecidableEq, Repr

/-- The loop `for { select { ... } }` of `Watch`, run on the sequence of cases
its `select` takes. -/
def watchLoop (db : database.DB) : List Select → State → State × Outcome
  | [], s => (s, Outcome.waiting)
  | Select.ctxDone :: _, s =>
    -- flush remaining events
    (flush db s, Outcome.returned none)
  | Select.events event ok now :: rest, s =>
    if !ok then (s, Outcome.returned none)
    else watchLoop db rest (handleEvent db event now s)
  | Select.errors err ok :: rest, s =>
    if !ok then (s, Outcome.returned none)
    else watchLoop db rest { s with reports := s.reports ++ [Report.watcherError err] }
  | Select.tick :: rest, s =>
    watchLoop db rest (flush db s)

/-- The method `Watch`: it creates the ticker, which panics unless the flush
interval is positive, and then runs the loop. -/
def Watch (db : database.DB) (inputs : List Select) (s : State) : State × Outcome :=
  if s.w.flushInterval ≤ 0 then (s, Outcome.panicked "non-positive interval for NewTicker")
  else watchLoop db inputs s

/-! ### Runs of the dispatch loop -/

/-- An iteration after which the loop of `Watch` is still running: a
notification is received and handled, a source error is received and printed,
or the ticker fires. -/
inductive Step where
  | notification (event : fsnotify.Event) (now : Nat)
  | sourceError (err : String)
  | timerTick
  deriving DecidableEq, Repr

/-- The case of `select` that a step takes. -/
def Step.select : Step → Select
  | Step.notification event now => Select.events event true now
  | Step.sourceError err => Select.errors err true
  | Step.timerTick => Select.tick

/-- The record a step brings in: the classified event of a notification,
nothing for the other steps. -/
def Step.arrival : Step → Option database.Event
  | Step.notification event now => some (classify event now)
  | Step.sourceError _ => none
  | Step.timerTick => none

/-- A receive that finds its channel closed (`ok` is false), on the
notification stream or on the error stream. -/
def Select.closed : Select → Bool
  | Select.events _ ok _ => !ok
  | Select.errors _ ok => !ok
  | _ => false

end watcher

/-! ## SQLite: the operator `LIKE` -/

namespace sqlite

/-- Whether `f` accepts the string or one of its proper suffixes: the ways a
`%` of a pattern can consume a run of characters. -/
def anySuffix (f : List Char → Bool) : List Char → Bool
  | [] => f []
  | c :: s => f (c :: s) || anySuffix f s

/-- The operator `LIKE` of SQLite with its defaults (no `ESCAPE` clause, case
folding of ASCII letters only), on the characters of the pattern and of the
string: `%` stands for any run of characters, `_` for any one character, and
any other character for itself or for the same ASCII letter in the other
case.  The strings hold no NUL character. -/
def likeChars : List Char → List Char → Bool
  | [], s => s.isEmpty
  | p :: ps, s =>
    if p = '%' then anySuffix (likeChars ps) s
    else
      match s with
      | [] => false
      | c :: cs => (p = '_' || p = c || p.toLower = c.toLower) && likeChars ps cs

/-- The SQL expression `s LIKE pattern`. -/
def like (s pattern : String) : Bool :=
  likeChars pattern.data s.data

end sqlite

/-! ## pkg/database: queries -/

namespace database

/-- A row of the table `events`: the text stored in the column `timestamp`
(the driver writes a `time.Time` as `2006-01-02 15:04:05.999999999-07:00`,
zone offset included) and the record that `rows.Scan` reads from the row. -/
structure Row where
  timestamp : String
  event : Event
  deriving DecidableEq, Repr

/-- The struct `QueryFilter`.  A `*time.Time` is given by the text that the
driver binds for it, written as in the column `timestamp`; nil is `none`. -/
structure QueryFilter where
  StartTime : Option String := none
  EndTime : Option String := none
  FileType : String := ""
  Directory : String := ""
  Limit : Int := 0
  deriving DecidableEq, Repr

/-- The comparison `a <= b` of SQLite on two texts (collation `BINARY`): the
first differing character decides, and a text is below those it begins. -/
def textLE : List Char → List Char → Bool
  | [], _ => true
  | _ :: _, [] => false
  | a :: as, b :: bs =>
    if a.val < b.val then true
    else if b.val < a.val then false
    else textLE as bs

/-- The `WHERE` clause that `QueryEvents` builds for a filter, as a test on a
row of the table `events`. -/
def whereClause (filter : QueryFilter) (row : Row) : Bool :=
  -- WHERE 1=1
  true &&
  (match filter.StartTime with
    | some t => textLE t.data row.timestamp.data  -- AND timestamp >= ?
    | none => true) &&
  (match filter.EndTime with
    | some t => textLE row.timestamp.data t.data  -- AND timestamp <= ?
    | none => true) &&
  (if filter.FileType ≠ "" then decide (row.event.FileType = filter.FileType)
    else true) &&                                 -- AND file_type = ?
  (if filter.Directory ≠ "" then sqlite.like row.event.Directory (filter.Directory ++ "%")
    else true)                                    -- AND directory LIKE ?

/-- The method `QueryEvents`, on the rows of the table `events`, when the
query succeeds: the rows that pass the `WHERE` clause, `ORDER BY timestamp
DESC` on the stored text (rows with equal texts come newest row first, as
SQLite returns them), cut by `LIMIT` when the limit is positive, each read
into its record. -/
def QueryEvents (rows : List Row) (filter : QueryFilter) : List Event :=
  let selected := rows.filter (whereClause filter)
  let ordered :=
    selected.reverse.insertionSort (fun a b => textLE b.timestamp.data a.timestamp.data = true)
  let limited := if filter.Limit > 0 then ordered.take filter.Limit.toNat else ordered
  limited.map Row.event

end database

/-! ## cmd: the reversal in `runQuery` and `runExport` -/

namespace cmd

/-- The element `events[n]` for an index of type `int`; `none` is the panic
`index out of range`. -/
def index {α : Type} (events : List α) (n : Int) : Option α :=
  if n < 0 then none else events[n.toNat]?

/-- The loop `for i := len(events)/2 - 1; i >= 0; i-- { ... }` of `runQuery`
and of `runExport`.  The first argument is `i + 1`: at `0` the test `i >= 0`
fails and the loop ends.  The result is `none` if an index is out of range. -/
def reverseLoop {α : Type} : Nat → List α → Option (List α)
  | 0, events => some events
  | i + 1, events =>
    let opp : Int := (events.length : Int) - 1 - (i : Int)
    -- events[i], events[opp] = events[opp], events[i]
    match index events (i : Int), index events opp with
    | some atI, some atOpp => reverseLoop i ((events.set i atOpp).set opp.toNat atI)
    | _, _ => none

/-- The statements under `// Reverse to show oldest first` of `runQuery` and
of `runExport`: the loop, started at `i = len(events)/2 - 1`. -/
def reverseEvents {α : Type} (events : List α) : Option (List α) :=
  reverseLoop (events.length / 2) events

end cmd

end FsTimeline

/-! ## Theorems -/

namespace FsTimeline

namespace watcher

/-! ### The classifier: event type -/

/-- Testing `op & flag == flag` for a one-bit flag reads that bit of `op`. -/
theorem land_flag_iff (op i : Nat) : op &&& 2 ^ i = 2 ^ i ↔ op.testBit i = true := by
  rw [Nat.and_two_pow]
  have hpos : 0 < 2 ^ i := Nat.pow_pos (by decide)
  cases op.testBit i
  · simp only [Bool.toNat_false, zero_mul, Bool.false_eq_true, iff_false]
    omega
  · simp

/-- The switch of `getEventType`, with each test read as a bit of `op`. -/
theorem getEventType_eq (op : Nat) :
    getEventType op =
      if op.testBit 0 then "CREATE"
      else if op.testBit 1 then "WRITE"
      else if op.testBit 2 then "REMOVE"
      else if op.testBit 3 then "RENAME"
      else if op.testBit 4 then "CHMOD"
      else "UNKNOWN" := by
  have h0 : op &&& 1 = 1 ↔ op.testBit 0 = true := land_flag_iff op 0
  have h1 : op &&& 2 = 2 ↔ op.testBit 1 = true := land_flag_iff op 1
  have h2 : op &&& 4 = 4 ↔ op.testBit 2 = true := land_flag_iff op 2
  have h3 : op &&& 8 = 8 ↔ op.testBit 3 = true := land_flag_iff op 3
  have h4 : op &&& 16 = 16 ↔ op.testBit 4 = true := land_flag_iff op 4
  unfold getEventType fsnotify.Create fsnotify.Write fsnotify.Remove fsnotify.Rename fsnotify.Chmod
  simp only [h0, h1, h2, h3, h4]

/-- Claim C1: the five flags are the bits 0 to 4 of the mask, in the order
CREATE, WRITE, REMOVE, RENAME, CHMOD; `getEventType op` is the name of the
first of them that is set in `op`, and it is UNKNOWN exactly when none of the
five is set.  A notification yields one record, whose event type is that
name. -/
theorem getEventType_first_set_flag (op : Nat) :
    (fsnotify.Create = 2 ^ 0 ∧ fsnotify.Write = 2 ^ 1 ∧ fsnotify.Remove = 2 ^ 2 ∧
      fsnotify.Rename = 2 ^ 3 ∧ fsnotify.Chmod = 2 ^ 4) ∧
    (getEventType op = "CREATE" ↔ op.testBit 0 = true) ∧
    (getEventType op = "WRITE" ↔ op.testBit 0 = false ∧ op.testBit 1 = true) ∧
    (getEventType op = "REMOVE" ↔
      op.testBit 0 = false ∧ op.testBit 1 = false ∧ op.testBit 2 = true) ∧
    (getEventType op = "RENAME" ↔
      op.testBit 0 = false ∧ op.testBit 1 = false ∧ op.testBit 2 = false ∧
        op.testBit 3 = true) ∧
    (getEventType op = "CHMOD" ↔
      op.testBit 0 = false ∧ op.testBit 1 = false ∧ op.testBit 2 = false ∧
        op.testBit 3 = false ∧ op.testBit 4 = true) ∧
    (getEventType op = "UNKNOWN" ↔
      op.testBit 0 = false ∧ op.testBit 1 = false ∧ op.testBit 2 = false ∧
        op.testBit 3 = false ∧ op.testBit 4 = false) ∧
    (∀ (name : String) (now : Nat),
      (classify { Name := name, Op := op } now).EventType = getEventType op) := by
  refine ⟨by decide, ?_, ?_, ?_, ?_, ?_, ?_, fun _ _ => rfl⟩ <;>
  · rw [getEventType_eq]
    cases op.testBit 0 <;> cases op.testBit 1 <;> cases op.testBit 2 <;>
      cases op.testBit 3 <;> cases op.testBit 4 <;> decide

/-! ### The classifier: file type -/

/-- On a name without a dot the scan of `filepath.Ext` finds nothing. -/
theorem extScan_no_dot (l acc : List Char) (h : '.' ∉ l) : filepath.extScan l acc = [] := by
  induction l generalizing acc with
  | nil => rfl
  | cons c rest ih =>
    have hc : c ≠ '.' := fun e => h (by simp [e])
    have hr : '.' ∉ rest := fun e => h (by simp [e])
    simp only [filepath.extScan]
    split
    · rfl
    · exact ih _ hr

/-- The scan of `filepath.Ext` stops at the last dot when no dot and no
separator follow it, and returns the name from that dot on. -/
theorem extScan_last_dot (x r acc : List Char) (hdot : '.' ∉ x) (hsep : '/' ∉ x) :
    filepath.extScan (x ++ '.' :: r) acc = '.' :: (x.reverse ++ acc) := by
  induction x generalizing acc with
  | nil => simp [filepath.extScan, filepath.IsPathSeparator]
  | cons c rest ih =>
    have hc : c ≠ '.' := fun e => hdot (by simp [e])
    have hs : c ≠ '/' := fun e => hsep (by simp [e])
    have hr : '.' ∉ rest := fun e => hdot (by simp [e])
    have hr2 : '/' ∉ rest := fun e => hsep (by simp [e])
    simp only [List.cons_append, filepath.extScan, filepath.IsPathSeparator, beq_iff_eq, hs,
      if_false, hc, List.reverse_cons, List.append_assoc, List.singleton_append]
    exact ih _ hr hr2

/-- A name without a dot has the file type `no-extension`. -/
theorem getFileType_no_dot (fileName : String) (h : '.' ∉ fileName.data) :
    getFileType fileName = "no-extension" := by
  have : filepath.Ext fileName = "" := by
    unfold filepath.Ext
    rw [extScan_no_dot _ _ (by simpa using h)]
  simp [getFileType, this]

/-- The file type of a name is what follows its last dot, as it stands in
the name, if no separator follows that dot. -/
theorem getFileType_suffix (fileName : String) (stem ext : List Char)
    (hsplit : fileName.data = stem ++ '.' :: ext) (hdot : '.' ∉ ext) (hsep : '/' ∉ ext) :
    getFileType fileName = String.mk ext := by
  have hext : filepath.Ext fileName = String.mk ('.' :: ext) := by
    unfold filepath.Ext
    rw [hsplit, List.reverse_append, List.reverse_cons, List.append_assoc, List.singleton_append,
      extScan_last_dot _ _ _ (by simpa using hdot) (by simpa using hsep)]
    simp
  have hne : String.mk ('.' :: ext) ≠ "" := by
    intro e
    have := congrArg String.data e
    simp at this
  have hp : (".": String).data = ['.'] := rfl
  simp [getFileType, hext, hne, strings.TrimPrefix, hp]

/-- The result of `filepath.Base` holds a separator only if it is `/`. -/
theorem Base_no_separator (path : String) (h : '/' ∈ (filepath.Base path).data) :
    filepath.Base path = "/" := by
  unfold filepath.Base at h ⊢
  by_cases h1 : path = ""
  · rw [if_pos h1] at h
    exact absurd h (by decide)
  · rw [if_neg h1] at h ⊢
    simp only at h ⊢
    split
    · rfl
    · rename_i h2
      rw [if_neg h2] at h
      simp only [List.mem_reverse] at h
      have := List.mem_takeWhile_imp h
      simp [filepath.IsPathSeparator] at this

/-! ### The bound on the iterations of `filepath.Clean` -/

/-- The iteration bound of `cleanLoop` is never what stops the loop: any two
bounds that are at least the number of bytes left to read give the same
result. -/
theorem cleanLoop_fuel (rooted : Bool) (n m : Nat) (rest out : List Char) (dotdot : Nat)
    (hn : rest.length ≤ n) (hm : rest.length ≤ m) :
    filepath.cleanLoop rooted n rest out dotdot = filepath.cleanLoop rooted m rest out dotdot := by
  induction n generalizing m rest out dotdot with
  | zero =>
    have hr : rest = [] := List.length_eq_zero.mp (by omega)
    subst hr
    cases m <;> simp [filepath.cleanLoop]
  | succ n ih =>
    cases m with
    | zero =>
      have hr : rest = [] := List.length_eq_zero.mp (by omega)
      subst hr
      simp [filepath.cleanLoop]
    | succ m =>
      cases rest with
      | nil => simp [filepath.cleanLoop]
      | cons c t =>
        simp only [List.length_cons, Nat.add_le_add_iff_right] at hn hm
        have htail : t.tail.length ≤ t.length := by simp
        simp only [filepath.cleanLoop]
        split
        · exact ih _ _ _ _ hn hm
        · rename_i hsep
          split
          · exact ih _ _ _ _ hn hm
          · split
            · split
              · split
                · exact ih _ _ _ _ (by omega) (by omega)
                · split
                  · exact ih _ _ _ _ (by omega) (by omega)
                  · exact ih _ _ _ _ (by omega) (by omega)
              · split
                · exact ih _ _ _ _ (by omega) (by omega)
                · exact ih _ _ _ _ (by omega) (by omega)
            · have hdrop : ((c :: t).dropWhile (fun x => !filepath.IsPathSeparator x)).length ≤
                  t.length := by
                rw [List.dropWhile_cons_of_pos (by simpa using hsep)]
                exact (List.dropWhile_sublist _).length_le
              exact ih _ _ _ _ (by omega) (by omega)

/-! ### Flushing and handling keep every event, in order -/

/-- A flush moves the buffer to the store and loses nothing: the batches
handed to `InsertEvents`, followed by the buffer, are the same before and
after. -/
theorem flush_trace (db : database.DB) (s : State) :
    (flush db s).inserted.flatten ++ (flush db s).w.eventBuffer =
      s.inserted.flatten ++ s.w.eventBuffer := by
  unfold flush
  split
  · rfl
  · dsimp only
    split <;> simp

/-- One notification adds exactly its record at the end of what has been
inserted or is buffered. -/
theorem handleEvent_trace (db : database.DB) (fsEvent : fsnotify.Event) (now : Nat) (s : State) :
    (handleEvent db fsEvent now s).inserted.flatten ++ (handleEvent db fsEvent now s).w.eventBuffer =
      s.inserted.flatten ++ s.w.eventBuffer ++ [classify fsEvent now] := by
  unfold handleEvent
  simp only
  split
  · rw [flush_trace]; simp [appendEvent]
  · simp [appendEvent]

/-- Claim C2, counterexample: the notification for `/a/README.TXT` is recorded
with file type `TXT`, not `txt`: the extension is not lower-cased. -/
theorem handleEvent_fileType_not_lowercased :
    (handleEvent ⟨fun _ _ => none⟩ ⟨"/a/README.TXT", fsnotify.Create⟩ 0
        (State.start ⟨[], 5, 100⟩)).w.eventBuffer.map database.Event.FileType = ["TXT"] ∧
    (handleEvent ⟨fun _ _ => none⟩ ⟨"/a/README.TXT", fsnotify.Create⟩ 0
        (State.start ⟨[], 5, 100⟩)).w.eventBuffer.map database.Event.FileType ≠ ["txt"] ∧
    String.mk ("TXT".data.map Char.toLower) = "txt" := by
  decide

/-- Claim C2, amended: the record that `handleEvent` builds for a path and
adds to the buffer has as file type the characters after the last `.` of the
base name of the path, unchanged (so in the case they have in the path), and
`no-extension` if the base name holds no `.`. -/
theorem handleEvent_fileType (db : database.DB) (fsEvent : fsnotify.Event) (now : Nat)
    (s : State) :
    ((handleEvent db fsEvent now s).inserted.flatten ++ (handleEvent db fsEvent now s).w.eventBuffer =
      s.inserted.flatten ++ s.w.eventBuffer ++ [classify fsEvent now]) ∧
    (∀ stem ext : List Char, (filepath.Base fsEvent.Name).data = stem ++ '.' :: ext → '.' ∉ ext →
      (classify fsEvent now).FileType = String.mk ext) ∧
    ('.' ∉ (filepath.Base fsEvent.Name).data →
      (classify fsEvent now).FileType = "no-extension") := by
  refine ⟨handleEvent_trace db fsEvent now s, ?_, ?_⟩
  · intro stem ext hsplit hdot
    refine getFileType_suffix _ stem ext hsplit hdot ?_
    intro hsep
    have hbase := Base_no_separator fsEvent.Name (by rw [hsplit]; simp [hsep])
    rw [hbase] at hsplit
    have hmem : '.' ∈ ("/" : String).data := by rw [hsplit]; simp
    exact absurd hmem (by decide)
  · intro h
    exact getFileType_no_dot _ h

/-- Claim C2, amended, at `/a/README.TXT` and `/b/z`. -/
theorem handleEvent_fileType_witness :
    (classify ⟨"/a/README.TXT", fsnotify.Write⟩ 7).FileType = "TXT" ∧
    (classify ⟨"/b/z", fsnotify.Remove⟩ 8).FileType = "no-extension" :=
  ⟨(handleEvent_fileType ⟨fun _ _ => none⟩ ⟨"/a/README.TXT", fsnotify.Write⟩ 7
      (State.start ⟨[], 5, 3⟩)).2.1 "README".data "TXT".data (by decide) (by decide),
   (handleEvent_fileType ⟨fun _ _ => none⟩ ⟨"/b/z", fsnotify.Remove⟩ 8
      (State.start ⟨[], 5, 3⟩)).2.2 (by decide)⟩

/-- Claim C3: `getFileType` returns the characters after the last `.` of the
file name one for one, so in the case they have in the name, and returns
`no-extension` for every name without a `.`.  (A file name holds no
separator; the first part asks only that none follows the last `.`.) -/
theorem getFileType_preserves_case (fileName : String) :
    (∀ stem ext : List Char, fileName.data = stem ++ '.' :: ext → '.' ∉ ext → '/' ∉ ext →
      getFileType fileName = String.mk ext) ∧
    ('.' ∉ fileName.data → getFileType fileName = "no-extension") :=
  ⟨fun stem ext hsplit hdot hsep => getFileType_suffix fileName stem ext hsplit hdot hsep,
   fun h => getFileType_no_dot fileName h⟩

/-- Claim C3 at `README.TXT` and `Makefile`. -/
theorem getFileType_preserves_case_witness :
    getFileType "README.TXT" = "TXT" ∧ getFileType "Makefile" = "no-extension" :=
  ⟨(getFileType_preserves_case "README.TXT").1 "README".data "TXT".data
      (by decide) (by decide) (by decide),
   (getFileType_preserves_case "Makefile").2 (by decide)⟩

/-! ### The dispatch loop -/

/-- What `flush` does to a buffer that is not empty: one call of
`InsertEvents` with the whole buffer, one report, and an empty buffer. -/
theorem flush_nonempty (db : database.DB) (s : State) (h : s.w.eventBuffer ≠ []) :
    flush db s =
      { w := { s.w with eventBuffer := [] }
        inserted := s.inserted ++ [s.w.eventBuffer]
        reports := s.reports ++
          [match db.InsertEvents s.inserted s.w.eventBuffer with
            | some err => Report.flushFailed s.w.eventBuffer.length err
            | none => Report.flushed s.w.eventBuffer.length] } := by
  unfold flush
  rw [if_neg (by simpa using h)]
  dsimp only
  split <;> rfl

/-- What `flush` does to an empty buffer: nothing. -/
theorem flush_empty (db : database.DB) (s : State) (h : s.w.eventBuffer = []) :
    flush db s = s := by
  unfold flush
  rw [if_pos (by simp [h])]

/-- After `flush` the buffer is empty. -/
theorem flush_buffer (db : database.DB) (s : State) : (flush db s).w.eventBuffer = [] := by
  by_cases h : s.w.eventBuffer = []
  · rw [flush_empty db s h, h]
  · rw [flush_nonempty db s h]

/-- The capacity is never written by `flush`. -/
theorem flush_maxBufferSize (db : database.DB) (s : State) :
    (flush db s).w.maxBufferSize = s.w.maxBufferSize := by
  by_cases h : s.w.eventBuffer = []
  · rw [flush_empty db s h]
  · rw [flush_nonempty db s h]

/-- The capacity is never written by `handleEvent`. -/
theorem handleEvent_maxBufferSize (db : database.DB) (fsEvent : fsnotify.Event) (now : Nat)
    (s : State) : (handleEvent db fsEvent now s).w.maxBufferSize = s.w.maxBufferSize := by
  unfold handleEvent
  dsimp only
  split
  · rw [flush_maxBufferSize]; rfl
  · rfl

/-- Below the capacity `handleEvent` only appends. -/
theorem handleEvent_below (db : database.DB) (fsEvent : fsnotify.Event) (now : Nat) (s : State)
    (h : (s.w.eventBuffer.length : Int) + 1 < s.w.maxBufferSize) :
    handleEvent db fsEvent now s = appendEvent (classify fsEvent now) s := by
  unfold handleEvent
  dsimp only
  rw [if_neg]
  simp only [appendEvent, List.length_append, List.length_singleton, decide_eq_true_eq]
  push_cast
  omega

/-- At the capacity `handleEvent` appends and then flushes. -/
theorem handleEvent_reaching (db : database.DB) (fsEvent : fsnotify.Event) (now : Nat) (s : State)
    (h : s.w.maxBufferSize ≤ (s.w.eventBuffer.length : Int) + 1) :
    handleEvent db fsEvent now s = flush db (appendEvent (classify fsEvent now) s) := by
  unfold handleEvent
  dsimp only
  rw [if_pos]
  simp only [appendEvent, List.length_append, List.length_singleton, decide_eq_true_eq]
  push_cast
  omega

/-- A loop that is still waiting goes on with the cases that follow. -/
theorem watchLoop_append (db : database.DB) (pre rest : List Select) (s s1 : State)
    (h : watchLoop db pre s = (s1, Outcome.waiting)) :
    watchLoop db (pre ++ rest) s = watchLoop db rest s1 := by
  induction pre generalizing s with
  | nil =>
    simp only [watchLoop, Prod.mk.injEq, and_true] at h
    rw [List.nil_append, h]
  | cons x xs ih =>
    cases x with
    | ctxDone => simp [watchLoop] at h
    | events event ok now =>
      cases ok with
      | false => simp [watchLoop] at h
      | true =>
        simp only [watchLoop, Bool.not_true, Bool.false_eq_true, if_false, List.cons_append] at h ⊢
        exact ih _ h
    | errors err ok =>
      cases ok with
      | false => simp [watchLoop] at h
      | true =>
        simp only [watchLoop, Bool.not_true, Bool.false_eq_true, if_false, List.cons_append] at h ⊢
        exact ih _ h
    | tick =>
      simp only [watchLoop, List.cons_append] at h ⊢
      exact ih _ h

/-- No step makes the loop return. -/
theorem watchLoop_steps_waiting (db : database.DB) (steps : List Step) (s : State) :
    (watchLoop db (steps.map Step.select) s).2 = Outcome.waiting := by
  induction steps generalizing s with
  | nil => rfl
  | cons st rest ih =>
    cases st <;> simp only [List.map_cons, Step.select, watchLoop, Bool.not_true, Bool.false_eq_true,
      if_false] <;> exact ih _

/-- The invariant of the pipeline: over any steps, what was handed to the
store followed by the buffer grows by exactly the arrivals, in order. -/
theorem watchLoop_steps_trace (db : database.DB) (steps : List Step) (s : State) :
    (watchLoop db (steps.map Step.select) s).1.inserted.flatten ++
        (watchLoop db (steps.map Step.select) s).1.w.eventBuffer =
      s.inserted.flatten ++ s.w.eventBuffer ++ steps.filterMap Step.arrival := by
  induction steps generalizing s with
  | nil => simp [watchLoop]
  | cons st rest ih =>
    cases st with
    | notification event now =>
      simp only [List.map_cons, Step.select, watchLoop, Bool.not_true, Bool.false_eq_true, if_false]
      rw [ih, handleEvent_trace]
      simp [Step.arrival]
    | sourceError err =>
      simp only [List.map_cons, Step.select, watchLoop, Bool.not_true, Bool.false_eq_true, if_false]
      rw [ih]
      simp [Step.arrival]
    | timerTick =>
      simp only [List.map_cons, Step.select, watchLoop]
      rw [ih, flush_trace]
      simp [Step.arrival]

/-- While the capacity is not reached, notifications only pile up in the
buffer: no store call, no report. -/
theorem watchLoop_notifications_below (db : database.DB) (evs : List (fsnotify.Event × Nat))
    (s : State)
    (h : (s.w.eventBuffer.length : Int) + (evs.length : Int) < s.w.maxBufferSize) :
    watchLoop db (evs.map (fun p => Select.events p.1 true p.2)) s =
      ({ s with w := { s.w with
            eventBuffer := s.w.eventBuffer ++ evs.map (fun p => classify p.1 p.2) } },
        Outcome.waiting) := by
  induction evs generalizing s with
  | nil => simp [watchLoop]
  | cons p rest ih =>
    simp only [List.length_cons, Nat.cast_add, Nat.cast_one] at h
    simp only [List.map_cons, watchLoop, Bool.not_true, Bool.false_eq_true, if_false]
    rw [handleEvent_below db p.1 p.2 s (by omega), ih]
    · simp [appendEvent]
    · simp only [appendEvent, List.length_append, List.length_singleton, Nat.cast_add,
        Nat.cast_one]
      omega

/-- Every return of the loop is a return of nil, made on the first case that
is the shutdown signal or a receive on a closed stream; on the shutdown signal
the state returned is the flushed one. -/
theorem watchLoop_returned (db : database.DB) (inputs : List Select) (s : State)
    (err : Option String) (hret : (watchLoop db inputs s).2 = Outcome.returned err) :
    err = none ∧
    ∃ (pre : List Select) (x : Select) (rest : List Select) (s1 : State),
      inputs = pre ++ x :: rest ∧
      watchLoop db pre s = (s1, Outcome.waiting) ∧
      (x = Select.ctxDone ∨ x.closed = true) ∧
      (x = Select.ctxDone → (watchLoop db inputs s).1 = flush db s1) := by
  induction inputs generalizing s with
  | nil => simp [watchLoop] at hret
  | cons x xs ih =>
    cases x with
    | ctxDone =>
      simp only [watchLoop, Outcome.returned.injEq] at hret
      exact ⟨hret.symm, [], Select.ctxDone, xs, s, rfl, rfl, Or.inl rfl, fun _ => rfl⟩
    | events event ok now =>
      cases ok with
      | false =>
        simp only [watchLoop, Bool.not_false, if_true, Outcome.returned.injEq] at hret
        exact ⟨hret.symm, [], Select.events event false now, xs, s, rfl, rfl, Or.inr rfl,
          fun h => by cases h⟩
      | true =>
        simp only [watchLoop, Bool.not_true, Bool.false_eq_true, if_false] at hret ⊢
        obtain ⟨he, pre, x, rest, s1, hin, hpre, hx, hdone⟩ := ih _ hret
        refine ⟨he, Select.events event true now :: pre, x, rest, s1, by rw [hin]; rfl, ?_, hx,
          hdone⟩
        simp only [watchLoop, Bool.not_true, Bool.false_eq_true, if_false]
        exact hpre
    | errors e ok =>
      cases ok with
      | false =>
        simp only [watchLoop, Bool.not_false, if_true, Outcome.returned.injEq] at hret
        exact ⟨hret.symm, [], Select.errors e false, xs, s, rfl, rfl, Or.inr rfl,
          fun h => by cases h⟩
      | true =>
        simp only [watchLoop, Bool.not_true, Bool.false_eq_true, if_false] at hret ⊢
        obtain ⟨he, pre, x, rest, s1, hin, hpre, hx, hdone⟩ := ih _ hret
        refine ⟨he, Select.errors e true :: pre, x, rest, s1, by rw [hin]; rfl, ?_, hx, hdone⟩
        simp only [watchLoop, Bool.not_true, Bool.false_eq_true, if_false]
        exact hpre
    | tick =>
      simp only [watchLoop] at hret ⊢
      obtain ⟨he, pre, x, rest, s1, hin, hpre, hx, hdone⟩ := ih _ hret
      refine ⟨he, Select.tick :: pre, x, rest, s1, by rw [hin]; rfl, ?_, hx, hdone⟩
      simp only [watchLoop]
      exact hpre

/-- Without a shutdown signal and without a closed stream the loop keeps
waiting. -/
theorem watchLoop_waiting (db : database.DB) (inputs : List Select) (s : State)
    (h : ∀ x ∈ inputs, x ≠ Select.ctxDone ∧ x.closed = false) :
    (watchLoop db inputs s).2 = Outcome.waiting := by
  induction inputs generalizing s with
  | nil => rfl
  | cons x xs ih =>
    have hx := h x (by simp)
    have hxs : ∀ y ∈ xs, y ≠ Select.ctxDone ∧ y.closed = false :=
      fun y hy => h y (by simp [hy])
    cases x with
    | ctxDone => exact absurd rfl hx.1
    | events event ok now =>
      cases ok with
      | false => simp [Select.closed] at hx
      | true =>
        simp only [watchLoop, Bool.not_true, Bool.false_eq_true, if_false]
        exact ih _ hxs
    | errors e ok =>
      cases ok with
      | false => simp [Select.closed] at hx
      | true =>
        simp only [watchLoop, Bool.not_true, Bool.false_eq_true, if_false]
        exact ih _ hxs
    | tick =>
      simp only [watchLoop]
      exact ih _ hxs

/-- Steps keep the buffer strictly below the capacity and leave the capacity
as it is. -/
theorem watchLoop_steps_below (db : database.DB) (steps : List Step) (s : State)
    (h : (s.w.eventBuffer.length : Int) < s.w.maxBufferSize) :
    ((watchLoop db (steps.map Step.select) s).1.w.eventBuffer.length : Int) < s.w.maxBufferSize ∧
    (watchLoop db (steps.map Step.select) s).1.w.maxBufferSize = s.w.maxBufferSize := by
  have hpos : (0 : Int) < s.w.maxBufferSize := by omega
  induction steps generalizing s with
  | nil => exact ⟨h, rfl⟩
  | cons st rest ih =>
    cases st with
    | notification event now =>
      simp only [List.map_cons, Step.select, watchLoop, Bool.not_true, Bool.false_eq_true, if_false]
      have hmax := handleEvent_maxBufferSize db event now s
      have hlen : ((handleEvent db event now s).w.eventBuffer.length : Int) <
          s.w.maxBufferSize := by
        by_cases hb : (s.w.eventBuffer.length : Int) + 1 < s.w.maxBufferSize
        · rw [handleEvent_below db event now s hb]
          simp only [appendEvent, List.length_append, List.length_singleton, Nat.cast_add,
            Nat.cast_one]
          exact hb
        · rw [handleEvent_reaching db event now s (by omega), flush_buffer]
          simpa using hpos
      have := ih (handleEvent db event now s) (by rw [hmax]; exact hlen) (by rw [hmax]; exact hpos)
      rw [hmax] at this
      exact this
    | sourceError err =>
      simp only [List.map_cons, Step.select, watchLoop, Bool.not_true, Bool.false_eq_true, if_false]
      exact ih _ h hpos
    | timerTick =>
      simp only [List.map_cons, Step.select, watchLoop]
      have hmax := flush_maxBufferSize db s
      have hlen : ((flush db s).w.eventBuffer.length : Int) < s.w.maxBufferSize := by
        rw [flush_buffer]
        simpa using hpos
      have := ih (flush db s) (by rw [hmax]; exact hlen) (by rw [hmax]; exact hpos)
      rw [hmax] at this
      exact this

/-- Once the ticker is created (positive flush interval) `Watch` is its loop. -/
theorem Watch_running (db : database.DB) (inputs : List Select) (s : State)
    (h : 0 < s.w.flushInterval) : Watch db inputs s = watchLoop db inputs s := by
  unfold Watch
  rw [if_neg (by omega)]

/-- A `Watch` that is waiting or has returned did create its ticker. -/
theorem Watch_not_panicked (db : database.DB) (inputs : List Select) (s : State)
    (h : ∀ msg, (Watch db inputs s).2 ≠ Outcome.panicked msg) : 0 < s.w.flushInterval := by
  by_contra hle
  apply h "non-positive interval for NewTicker"
  unfold Watch
  rw [if_pos (by omega)]

/-! ### The claims on the dispatch loop -/

/-- Claim C4: with capacity `N ≥ 1` and an empty buffer, `N` notifications in
a row (no tick, no shutdown) make the loop call `InsertEvents` exactly once;
the call is made while the `N`-th notification is handled (after any `k < N`
of them no call has been made) and its batch is the `N` classified events in
arrival order; the buffer is empty afterwards.  With a positive flush interval
`Watch` is that loop. -/
theorem capacity_triggers_one_flush (db : database.DB) (flushInterval : Int) (N : Nat)
    (hN : 1 ≤ N) (evs : List (fsnotify.Event × Nat)) (hlen : evs.length = N) :
    (∀ k, k < N →
      (watchLoop db ((evs.take k).map (fun p => Select.events p.1 true p.2))
        (State.start { eventBuffer := [], flushInterval := flushInterval,
                       maxBufferSize := N })).1.inserted = []) ∧
    (watchLoop db (evs.map (fun p => Select.events p.1 true p.2))
        (State.start { eventBuffer := [], flushInterval := flushInterval,
                       maxBufferSize := N })).1.inserted =
      [evs.map (fun p => classify p.1 p.2)] ∧
    (watchLoop db (evs.map (fun p => Select.events p.1 true p.2))
        (State.start { eventBuffer := [], flushInterval := flushInterval,
                       maxBufferSize := N })).1.w.eventBuffer = [] ∧
    (0 < flushInterval → ∀ inputs : List Select,
      Watch db inputs
        (State.start { eventBuffer := [], flushInterval := flushInterval,
                       maxBufferSize := N }) =
      watchLoop db inputs
        (State.start { eventBuffer := [], flushInterval := flushInterval,
                       maxBufferSize := N })) := by
  have hbelow : ∀ k, k < N →
      watchLoop db ((evs.take k).map (fun p => Select.events p.1 true p.2))
        (State.start { eventBuffer := [], flushInterval := flushInterval, maxBufferSize := N }) =
      ({ w := { eventBuffer := (evs.take k).map (fun p => classify p.1 p.2),
                flushInterval := flushInterval, maxBufferSize := N },
         inserted := [], reports := [] }, Outcome.waiting) := by
    intro k hk
    rw [watchLoop_notifications_below]
    · simp [State.start]
    · simp only [State.start, List.length_nil, List.length_take, hlen]
      have : min k N = k := by omega
      rw [this]
      push_cast
      omega
  have hne : evs ≠ [] := by
    intro e
    rw [e] at hlen
    simp at hlen
    omega
  have hsplit : evs = evs.take (N - 1) ++ [evs.getLast hne] := by
    have h1 : evs.take (N - 1) = evs.dropLast := by
      rw [List.dropLast_eq_take, hlen]
    rw [h1, List.dropLast_append_getLast]
  have hfull :
      watchLoop db (evs.map (fun p => Select.events p.1 true p.2))
        (State.start { eventBuffer := [], flushInterval := flushInterval, maxBufferSize := N }) =
      ({ w := { eventBuffer := [], flushInterval := flushInterval, maxBufferSize := N },
         inserted := [evs.map (fun p => classify p.1 p.2)],
         reports := [match db.InsertEvents [] (evs.map (fun p => classify p.1 p.2)) with
            | some err => Report.flushFailed (evs.map (fun p => classify p.1 p.2)).length err
            | none => Report.flushed (evs.map (fun p => classify p.1 p.2)).length] },
        Outcome.waiting) := by
    have hcls : evs.map (fun p => classify p.1 p.2) =
        (evs.take (N - 1)).map (fun p => classify p.1 p.2) ++
          [classify (evs.getLast hne).1 (evs.getLast hne).2] := by
      conv_lhs => rw [hsplit]
      simp
    conv_lhs => rw [hsplit]
    rw [List.map_append, watchLoop_append db _ _ _ _ (hbelow (N - 1) (by omega))]
    simp only [List.map_cons, List.map_nil, watchLoop, Bool.not_true, Bool.false_eq_true,
      if_false]
    rw [handleEvent_reaching, flush_nonempty]
    · simp only [appendEvent, List.nil_append, ← hcls]
    · simp [appendEvent]
    · simp only [List.length_map, List.length_take, hlen]
      have : min (N - 1) N = N - 1 := by omega
      rw [this]
      omega
  refine ⟨fun k hk => ?_, ?_, ?_, fun hpos inputs => Watch_running db inputs _ hpos⟩
  · rw [hbelow k hk]
  · rw [hfull]
  · rw [hfull]

/-- Claim C4 at capacity 3 and a flush interval of one hour, with `/a/x.txt`
created, `/a/y.txt` written and `/b/z` removed: one batch of three records, in
that order, from the loop and from `Watch`. -/
theorem capacity_triggers_one_flush_witness :
    1 ≤ 3 ∧
    (watchLoop ⟨fun _ _ => none⟩
        [Select.events ⟨"/a/x.txt", fsnotify.Create⟩ true 10,
         Select.events ⟨"/a/y.txt", fsnotify.Write⟩ true 11,
         Select.events ⟨"/b/z", fsnotify.Remove⟩ true 12]
        (State.start { eventBuffer := [], flushInterval := 3600, maxBufferSize := 3 })).1.inserted =
      [[{ ID := 0, Timestamp := 10, EventType := "CREATE", FilePath := "/a/x.txt",
          FileName := "x.txt", FileType := "txt", Directory := "/a" },
        { ID := 0, Timestamp := 11, EventType := "WRITE", FilePath := "/a/y.txt",
          FileName := "y.txt", FileType := "txt", Directory := "/a" },
        { ID := 0, Timestamp := 12, EventType := "REMOVE", FilePath := "/b/z",
          FileName := "z", FileType := "no-extension", Directory := "/b" }]] ∧
    Watch ⟨fun _ _ => none⟩
        [Select.events ⟨"/a/x.txt", fsnotify.Create⟩ true 10,
         Select.events ⟨"/a/y.txt", fsnotify.Write⟩ true 11,
         Select.events ⟨"/b/z", fsnotify.Remove⟩ true 12]
        (State.start { eventBuffer := [], flushInterval := 3600, maxBufferSize := 3 }) =
      ({ w := { eventBuffer := [], flushInterval := 3600, maxBufferSize := 3 },
         inserted :=
          [[{ ID := 0, Timestamp := 10, EventType := "CREATE", FilePath := "/a/x.txt",
              FileName := "x.txt", FileType := "txt", Directory := "/a" },
            { ID := 0, Timestamp := 11, EventType := "WRITE", FilePath := "/a/y.txt",
              FileName := "y.txt", FileType := "txt", Directory := "/a" },
            { ID := 0, Timestamp := 12, EventType := "REMOVE", FilePath := "/b/z",
              FileName := "z", FileType := "no-extension", Directory := "/b" }]],
         reports := [Report.flushed 3] }, Outcome.waiting) :=
  ⟨by decide,
   (capacity_triggers_one_flush ⟨fun _ _ => none⟩ 3600 3 (by decide)
      [(⟨"/a/x.txt", fsnotify.Create⟩, 10), (⟨"/a/y.txt", fsnotify.Write⟩, 11),
       (⟨"/b/z", fsnotify.Remove⟩, 12)] rfl).2.1.trans (by decide),
   by decide⟩

/-- Claim C5: over any sequence of notifications, source errors and timer
ticks taken by the loop, and whatever `InsertEvents` answers, the batches
handed to the store, concatenated in the order of the calls, followed by the
buffer, are the classified events in arrival order, after what was there at
the start; from an empty buffer and no earlier call they are exactly the
classified events.  The loop is still waiting after these steps, and with a
positive flush interval `Watch` is that loop. -/
theorem batches_then_buffer_are_arrivals (db : database.DB) (steps : List Step) (s : State) :
    ((watchLoop db (steps.map Step.select) s).1.inserted.flatten ++
        (watchLoop db (steps.map Step.select) s).1.w.eventBuffer =
      s.inserted.flatten ++ s.w.eventBuffer ++ steps.filterMap Step.arrival) ∧
    (s.w.eventBuffer = [] → s.inserted = [] →
      (watchLoop db (steps.map Step.select) s).1.inserted.flatten ++
        (watchLoop db (steps.map Step.select) s).1.w.eventBuffer =
      steps.filterMap Step.arrival) ∧
    (watchLoop db (steps.map Step.select) s).2 = Outcome.waiting ∧
    (0 < s.w.flushInterval →
      Watch db (steps.map Step.select) s = watchLoop db (steps.map Step.select) s) := by
  refine ⟨watchLoop_steps_trace db steps s, fun hb hi => ?_, watchLoop_steps_waiting db steps s,
    fun hpos => Watch_running db _ s hpos⟩
  rw [watchLoop_steps_trace, hb, hi]
  simp

/-- Claim C5 at capacity 2 with a store that fails every time: three
notifications with a source error and a tick in between; the batches handed
to the store and the buffer together are the three records in arrival order. -/
theorem batches_then_buffer_are_arrivals_witness :
    (watchLoop ⟨fun _ _ => some "disk full"⟩
        ([Step.notification ⟨"/a/x.txt", fsnotify.Create⟩ 10, Step.sourceError "overflow",
          Step.notification ⟨"/a/y.txt", fsnotify.Write⟩ 11, Step.timerTick,
          Step.notification ⟨"/b/z", fsnotify.Remove⟩ 12].map Step.select)
        (State.start { eventBuffer := [], flushInterval := 5,
                       maxBufferSize := 2 })).1.inserted.flatten ++
      (watchLoop ⟨fun _ _ => some "disk full"⟩
        ([Step.notification ⟨"/a/x.txt", fsnotify.Create⟩ 10, Step.sourceError "overflow",
          Step.notification ⟨"/a/y.txt", fsnotify.Write⟩ 11, Step.timerTick,
          Step.notification ⟨"/b/z", fsnotify.Remove⟩ 12].map Step.select)
        (State.start { eventBuffer := [], flushInterval := 5,
                       maxBufferSize := 2 })).1.w.eventBuffer =
      [classify ⟨"/a/x.txt", fsnotify.Create⟩ 10, classify ⟨"/a/y.txt", fsnotify.Write⟩ 11,
       classify ⟨"/b/z", fsnotify.Remove⟩ 12] ∧
    Watch ⟨fun _ _ => some "disk full"⟩
        ([Step.notification ⟨"/a/x.txt", fsnotify.Create⟩ 10, Step.sourceError "overflow",
          Step.notification ⟨"/a/y.txt", fsnotify.Write⟩ 11, Step.timerTick,
          Step.notification ⟨"/b/z", fsnotify.Remove⟩ 12].map Step.select)
        (State.start { eventBuffer := [], flushInterval := 5, maxBufferSize := 2 }) =
      ({ w := { eventBuffer := [classify ⟨"/b/z", fsnotify.Remove⟩ 12],
                flushInterval := 5, maxBufferSize := 2 },
         inserted := [[classify ⟨"/a/x.txt", fsnotify.Create⟩ 10,
                       classify ⟨"/a/y.txt", fsnotify.Write⟩ 11]],
         reports := [Report.watcherError "overflow", Report.flushFailed 2 "disk full"] },
        Outcome.waiting) :=
  ⟨(batches_then_buffer_are_arrivals ⟨fun _ _ => some "disk full"⟩
      [Step.notification ⟨"/a/x.txt", fsnotify.Create⟩ 10, Step.sourceError "overflow",
       Step.notification ⟨"/a/y.txt", fsnotify.Write⟩ 11, Step.timerTick,
       Step.notification ⟨"/b/z", fsnotify.Remove⟩ 12]
      (State.start { eventBuffer := [], flushInterval := 5, maxBufferSize := 2 })).2.1 rfl rfl,
   by decide⟩

/-- Claim C6: when `Watch` takes the shutdown signal in a state reached while
running, it flushes once and returns nil, whatever cases would follow: with an
empty buffer no store call is made, otherwise exactly one, whose batch is the
buffer as it stood; the buffer is empty afterwards. -/
theorem shutdown_flushes_once (db : database.DB) (pre rest : List Select) (s s1 : State)
    (hrun : Watch db pre s = (s1, Outcome.waiting)) :
    Watch db (pre ++ Select.ctxDone :: rest) s = (flush db s1, Outcome.returned none) ∧
    (s1.w.eventBuffer = [] → (flush db s1).inserted = s1.inserted) ∧
    (s1.w.eventBuffer ≠ [] → (flush db s1).inserted = s1.inserted ++ [s1.w.eventBuffer]) ∧
    (flush db s1).w.eventBuffer = [] := by
  have hpos : 0 < s.w.flushInterval :=
    Watch_not_panicked db pre s (fun msg h => by rw [hrun] at h; cases h)
  rw [Watch_running db _ s hpos] at hrun ⊢
  refine ⟨?_, fun h => ?_, fun h => ?_, flush_buffer db s1⟩
  · rw [watchLoop_append db pre _ s s1 hrun]
    rfl
  · rw [flush_empty db s1 h]
  · rw [flush_nonempty db s1 h]

/-- Claim C6 at capacity 100: two notifications, then the shutdown signal
(and a notification that is never looked at): one store call, with the two
events. -/
theorem shutdown_flushes_once_witness :
    Watch ⟨fun _ _ => none⟩
        [Select.events ⟨"/a/x.txt", fsnotify.Create⟩ true 10,
         Select.events ⟨"/a/y.txt", fsnotify.Write⟩ true 11]
        (State.start { eventBuffer := [], flushInterval := 5, maxBufferSize := 100 }) =
      ({ w := { eventBuffer := [classify ⟨"/a/x.txt", fsnotify.Create⟩ 10,
                                classify ⟨"/a/y.txt", fsnotify.Write⟩ 11],
                flushInterval := 5, maxBufferSize := 100 },
         inserted := [], reports := [] }, Outcome.waiting) ∧
    Watch ⟨fun _ _ => none⟩
        ([Select.events ⟨"/a/x.txt", fsnotify.Create⟩ true 10,
          Select.events ⟨"/a/y.txt", fsnotify.Write⟩ true 11] ++
          Select.ctxDone :: [Select.events ⟨"/b/z", fsnotify.Remove⟩ true 12])
        (State.start { eventBuffer := [], flushInterval := 5, maxBufferSize := 100 }) =
      ({ w := { eventBuffer := [], flushInterval := 5, maxBufferSize := 100 },
         inserted := [[classify ⟨"/a/x.txt", fsnotify.Create⟩ 10,
                       classify ⟨"/a/y.txt", fsnotify.Write⟩ 11]],
         reports := [Report.flushed 2] }, Outcome.returned none) :=
  ⟨by decide,
   (shutdown_flushes_once ⟨fun _ _ => none⟩
      [Select.events ⟨"/a/x.txt", fsnotify.Create⟩ true 10,
       Select.events ⟨"/a/y.txt", fsnotify.Write⟩ true 11]
      [Select.events ⟨"/b/z", fsnotify.Remove⟩ true 12]
      (State.start { eventBuffer := [], flushInterval := 5, maxBufferSize := 100 })
      { w := { eventBuffer := [classify ⟨"/a/x.txt", fsnotify.Create⟩ 10,
                               classify ⟨"/a/y.txt", fsnotify.Write⟩ 11],
               flushInterval := 5, maxBufferSize := 100 },
        inserted := [], reports := [] }
      (by decide)).1.trans (by decide)⟩

/-- Claim C7, counterexample: with capacity 100, one notification and then
the notification stream found closed, `Watch` has returned (no shutdown signal
was taken) while the event is still in the buffer and no store call was ever
made. -/
theorem Watch_returns_with_events_buffered :
    Watch ⟨fun _ _ => none⟩
        [Select.events ⟨"/a/x.txt", fsnotify.Create⟩ true 10, Select.events ⟨"", 0⟩ false 0]
        (State.start { eventBuffer := [], flushInterval := 5, maxBufferSize := 100 }) =
      ({ w := { eventBuffer := [classify ⟨"/a/x.txt", fsnotify.Create⟩ 10],
                flushInterval := 5, maxBufferSize := 100 },
         inserted := [], reports := [] }, Outcome.returned none) := by
  decide

/-- Claim C7, amended: a running `Watch` (positive flush interval) keeps
waiting as long as no shutdown signal is taken and no stream is found closed;
when `Watch` returns it returns nil, and it does so on the first case that is
the shutdown signal or a receive on a closed notification or error stream.
On the shutdown signal it returns the flushed state: the buffer is empty and
every event buffered before is in the batches handed to the store. -/
theorem Watch_exits (db : database.DB) (inputs : List Select) (s : State) :
    (0 < s.w.flushInterval → (∀ x ∈ inputs, x ≠ Select.ctxDone ∧ x.closed = false) →
      (Watch db inputs s).2 = Outcome.waiting) ∧
    (∀ err : Option String, (Watch db inputs s).2 = Outcome.returned err →
      err = none ∧
      ∃ (pre : List Select) (x : Select) (rest : List Select) (s1 : State),
        inputs = pre ++ x :: rest ∧
        Watch db pre s = (s1, Outcome.waiting) ∧
        (x = Select.ctxDone ∨ x.closed = true) ∧
        (x = Select.ctxDone →
          (Watch db inputs s).1 = flush db s1 ∧
          (Watch db inputs s).1.w.eventBuffer = [] ∧
          (Watch db inputs s).1.inserted.flatten = s1.inserted.flatten ++ s1.w.eventBuffer)) := by
  refine ⟨fun hpos hall => ?_, fun err hret => ?_⟩
  · rw [Watch_running db inputs s hpos]
    exact watchLoop_waiting db inputs s hall
  · have hpos : 0 < s.w.flushInterval :=
      Watch_not_panicked db inputs s (fun msg h => by rw [hret] at h; cases h)
    rw [Watch_running db inputs s hpos] at hret ⊢
    obtain ⟨he, pre, x, rest, s1, hin, hpre, hx, hdone⟩ := watchLoop_returned db inputs s err hret
    refine ⟨he, pre, x, rest, s1, hin, ?_, hx, fun hxd => ?_⟩
    · rw [Watch_running db pre s hpos]
      exact hpre
    · have hst := hdone hxd
      refine ⟨hst, ?_, ?_⟩
      · rw [hst, flush_buffer]
      · have := flush_trace db s1
        rw [flush_buffer, List.append_nil] at this
        rw [hst, this]

/-- Claim C7, amended, at capacity 100: a notification and then the shutdown
signal; `Watch` returns nil with an empty buffer and the event handed to the
store. -/
theorem Watch_exits_witness :
    (Watch ⟨fun _ _ => none⟩
        [Select.events ⟨"/a/x.txt", fsnotify.Create⟩ true 10, Select.ctxDone]
        (State.start { eventBuffer := [], flushInterval := 5, maxBufferSize := 100 })).2 =
      Outcome.returned none ∧
    ∃ (pre : List Select) (x : Select) (rest : List Select) (s1 : State),
      [Select.events ⟨"/a/x.txt", fsnotify.Create⟩ true 10, Select.ctxDone] = pre ++ x :: rest ∧
      Watch ⟨fun _ _ => none⟩ pre
        (State.start { eventBuffer := [], flushInterval := 5, maxBufferSize := 100 }) =
        (s1, Outcome.waiting) ∧
      (x = Select.ctxDone ∨ x.closed = true) ∧
      (x = Select.ctxDone →
        (Watch ⟨fun _ _ => none⟩
          [Select.events ⟨"/a/x.txt", fsnotify.Create⟩ true 10, Select.ctxDone]
          (State.start { eventBuffer := [], flushInterval := 5, maxBufferSize := 100 })).1 =
          flush ⟨fun _ _ => none⟩ s1 ∧
        (Watch ⟨fun _ _ => none⟩
          [Select.events ⟨"/a/x.txt", fsnotify.Create⟩ true 10, Select.ctxDone]
          (State.start { eventBuffer := [], flushInterval := 5,
                         maxBufferSize := 100 })).1.w.eventBuffer = [] ∧
        (Watch ⟨fun _ _ => none⟩
          [Select.events ⟨"/a/x.txt", fsnotify.Create⟩ true 10, Select.ctxDone]
          (State.start { eventBuffer := [], flushInterval := 5,
                         maxBufferSize := 100 })).1.inserted.flatten =
          s1.inserted.flatten ++ s1.w.eventBuffer) :=
  ⟨by decide,
   ((Watch_exits ⟨fun _ _ => none⟩
      [Select.events ⟨"/a/x.txt", fsnotify.Create⟩ true 10, Select.ctxDone]
      (State.start { eventBuffer := [], flushInterval := 5, maxBufferSize := 100 })).2 none
      (by decide)).2⟩

/-- Claim C8: when `InsertEvents` fails for a buffer that is not empty,
`flush` has called it once with the whole buffer, has printed the failure with
the batch size and the error, and leaves the buffer empty.  The loop goes on
(whatever steps follow a tick that flushed, it is still waiting), and a
following notification is handled as usual: its record alone is in the buffer
under a capacity above 1, or is flushed at once as a batch of its own
otherwise; the failed batch is never handed to the store a second time.  With
a positive flush interval `Watch` is that loop. -/
theorem failed_flush_drops_batch (db : database.DB) (s : State) (err : String)
    (hne : s.w.eventBuffer ≠ [])
    (hfail : db.InsertEvents s.inserted s.w.eventBuffer = some err) :
    flush db s =
      { w := { s.w with eventBuffer := [] }
        inserted := s.inserted ++ [s.w.eventBuffer]
        reports := s.reports ++ [Report.flushFailed s.w.eventBuffer.length err] } ∧
    (∀ steps : List Step,
      (watchLoop db (Select.tick :: steps.map Step.select) s).2 = Outcome.waiting) ∧
    (∀ (event : fsnotify.Event) (now : Nat),
      watchLoop db [Select.tick, Select.events event true now] s =
        (handleEvent db event now (flush db s), Outcome.waiting)) ∧
    (∀ (event : fsnotify.Event) (now : Nat), 1 < s.w.maxBufferSize →
      (handleEvent db event now (flush db s)).w.eventBuffer = [classify event now] ∧
      (handleEvent db event now (flush db s)).inserted = s.inserted ++ [s.w.eventBuffer]) ∧
    (∀ (event : fsnotify.Event) (now : Nat), s.w.maxBufferSize ≤ 1 →
      (handleEvent db event now (flush db s)).w.eventBuffer = [] ∧
      (handleEvent db event now (flush db s)).inserted =
        s.inserted ++ [s.w.eventBuffer, [classify event now]]) ∧
    (0 < s.w.flushInterval →
      ∀ inputs : List Select, Watch db inputs s = watchLoop db inputs s) := by
  have hflush : flush db s =
      { w := { s.w with eventBuffer := [] }
        inserted := s.inserted ++ [s.w.eventBuffer]
        reports := s.reports ++ [Report.flushFailed s.w.eventBuffer.length err] } := by
    rw [flush_nonempty db s hne, hfail]
  refine ⟨hflush, fun steps => ?_, fun event now => ?_, fun event now hcap => ?_,
    fun event now hcap => ?_, fun hpos inputs => Watch_running db inputs s hpos⟩
  · simp only [watchLoop]
    exact watchLoop_steps_waiting db steps _
  · simp [watchLoop]
  · rw [handleEvent_below, hflush]
    · simp [appendEvent]
    · rw [hflush]
      simpa using hcap
  · rw [handleEvent_reaching, flush_nonempty, hflush]
    · simp [appendEvent]
    · simp [appendEvent]
    · rw [hflush]
      simpa using hcap

/-- Claim C8 at capacity 100 with a store that always fails: one buffered
event, a tick, then another notification. -/
theorem failed_flush_drops_batch_witness :
    flush ⟨fun _ _ => some "disk full"⟩
        { w := { eventBuffer := [classify ⟨"/a/x.txt", fsnotify.Create⟩ 10],
                 flushInterval := 5, maxBufferSize := 100 },
          inserted := [], reports := [] } =
      { w := { eventBuffer := [], flushInterval := 5, maxBufferSize := 100 },
        inserted := [[classify ⟨"/a/x.txt", fsnotify.Create⟩ 10]],
        reports := [Report.flushFailed 1 "disk full"] } ∧
    Watch ⟨fun _ _ => some "disk full"⟩
        [Select.tick, Select.events ⟨"/a/y.txt", fsnotify.Write⟩ true 11]
        { w := { eventBuffer := [classify ⟨"/a/x.txt", fsnotify.Create⟩ 10],
                 flushInterval := 5, maxBufferSize := 100 },
          inserted := [], reports := [] } =
      ({ w := { eventBuffer := [classify ⟨"/a/y.txt", fsnotify.Write⟩ 11],
                flushInterval := 5, maxBufferSize := 100 },
         inserted := [[classify ⟨"/a/x.txt", fsnotify.Create⟩ 10]],
         reports := [Report.flushFailed 1 "disk full"] }, Outcome.waiting) :=
  ⟨(failed_flush_drops_batch ⟨fun _ _ => some "disk full"⟩
      { w := { eventBuffer := [classify ⟨"/a/x.txt", fsnotify.Create⟩ 10],
               flushInterval := 5, maxBufferSize := 100 },
        inserted := [], reports := [] } "disk full" (by decide) rfl).1.trans (by decide),
   by decide⟩

/-- Claim C9: on an empty buffer `flush` changes nothing: no call of
`InsertEvents` is added, no report is printed and the watcher is as before,
whether the flush comes from a tick of the loop, from the shutdown signal or
from `Close`.  With a positive flush interval `Watch` is that loop. -/
theorem flush_on_empty_buffer_is_noop (db : database.DB) (s : State)
    (hempty : s.w.eventBuffer = []) :
    flush db s = s ∧
    (flush db s).inserted = s.inserted ∧
    (flush db s).reports = s.reports ∧
    (∀ rest : List Select, watchLoop db (Select.tick :: rest) s = watchLoop db rest s) ∧
    (∀ rest : List Select,
      watchLoop db (Select.ctxDone :: rest) s = (s, Outcome.returned none)) ∧
    Close db s = s ∧
    (0 < s.w.flushInterval →
      ∀ inputs : List Select, Watch db inputs s = watchLoop db inputs s) := by
  have h := flush_empty db s hempty
  refine ⟨h, by rw [h], by rw [h], fun rest => ?_, fun rest => ?_, h,
    fun hpos inputs => Watch_running db inputs s hpos⟩
  · simp only [watchLoop, h]
  · simp only [watchLoop, h]

/-- Claim C9 on a watcher that has already flushed once and whose store
fails: a tick leaves the state as it is. -/
theorem flush_on_empty_buffer_is_noop_witness :
    watchLoop ⟨fun _ _ => some "disk full"⟩ [Select.tick]
        { w := { eventBuffer := [], flushInterval := 5, maxBufferSize := 3 },
          inserted := [[classify ⟨"/a/x.txt", fsnotify.Create⟩ 10]],
          reports := [Report.flushed 1] } =
      ({ w := { eventBuffer := [], flushInterval := 5, maxBufferSize := 3 },
         inserted := [[classify ⟨"/a/x.txt", fsnotify.Create⟩ 10]],
         reports := [Report.flushed 1] }, Outcome.waiting) :=
  ((flush_on_empty_buffer_is_noop ⟨fun _ _ => some "disk full"⟩
      { w := { eventBuffer := [], flushInterval := 5, maxBufferSize := 3 },
        inserted := [[classify ⟨"/a/x.txt", fsnotify.Create⟩ 10]],
        reports := [Report.flushed 1] } rfl).2.2.2.1 []).trans (by decide)

/-- Claim C10: with a maximum buffer size `M ≥ 1` and an empty buffer at the
start, after every sequence of steps of the loop (notifications handled,
source errors, timer ticks) fewer than `M` events are buffered, and the buffer
never holds more than `M`: at its fullest, right after the append inside
`handleEvent` and before the flush, it holds at most `M`.  With a positive
flush interval `Watch` is that loop. -/
theorem buffer_stays_below_capacity (db : database.DB) (flushInterval : Int) (M : Int)
    (hM : 1 ≤ M) (steps : List Step) :
    ((watchLoop db (steps.map Step.select)
        (State.start { eventBuffer := [], flushInterval := flushInterval,
                       maxBufferSize := M })).1.w.eventBuffer.length : Int) < M ∧
    (watchLoop db (steps.map Step.select)
        (State.start { eventBuffer := [], flushInterval := flushInterval,
                       maxBufferSize := M })).1.w.maxBufferSize = M ∧
    (∀ event : database.Event,
      ((appendEvent event (watchLoop db (steps.map Step.select)
        (State.start { eventBuffer := [], flushInterval := flushInterval,
                       maxBufferSize := M })).1).w.eventBuffer.length : Int) ≤ M) ∧
    (0 < flushInterval →
      Watch db (steps.map Step.select)
        (State.start { eventBuffer := [], flushInterval := flushInterval,
                       maxBufferSize := M }) =
      watchLoop db (steps.map Step.select)
        (State.start { eventBuffer := [], flushInterval := flushInterval,
                       maxBufferSize := M })) := by
  have h := watchLoop_steps_below db steps
    (State.start { eventBuffer := [], flushInterval := flushInterval, maxBufferSize := M })
    (by simp only [State.start, List.length_nil, Nat.cast_zero]; omega)
  refine ⟨?_, ?_, fun event => ?_, fun hpos => Watch_running db _ _ hpos⟩
  · simpa only [State.start] using h.1
  · simpa only [State.start] using h.2
  · have h1 := h.1
    simp only [State.start] at h1 ⊢
    simp only [appendEvent, List.length_append, List.length_singleton, Nat.cast_add,
      Nat.cast_one]
    omega

/-- Claim C10 at capacity 2: after four notifications with a tick in between
the buffer holds one event. -/
theorem buffer_stays_below_capacity_witness :
    (1 : Int) ≤ 2 ∧
    (Watch ⟨fun _ _ => none⟩
        ([Step.notification ⟨"/a/x.txt", fsnotify.Create⟩ 10, Step.timerTick,
          Step.notification ⟨"/a/y.txt", fsnotify.Write⟩ 11,
          Step.notification ⟨"/b/z", fsnotify.Remove⟩ 12,
          Step.notification ⟨"/b/z", fsnotify.Chmod⟩ 13].map Step.select)
        (State.start { eventBuffer := [], flushInterval := 5,
                       maxBufferSize := 2 })).1.w.eventBuffer.length = 1 ∧
    ((watchLoop ⟨fun _ _ => none⟩
        ([Step.notification ⟨"/a/x.txt", fsnotify.Create⟩ 10, Step.timerTick,
          Step.notification ⟨"/a/y.txt", fsnotify.Write⟩ 11,
          Step.notification ⟨"/b/z", fsnotify.Remove⟩ 12,
          Step.notification ⟨"/b/z", fsnotify.Chmod⟩ 13].map Step.select)
        (State.start { eventBuffer := [], flushInterval := 5,
                       maxBufferSize := 2 })).1.w.eventBuffer.length : Int) < 2 :=
  ⟨by decide, by decide,
   (buffer_stays_below_capacity ⟨fun _ _ => none⟩ 5 2 (by decide)
      [Step.notification ⟨"/a/x.txt", fsnotify.Create⟩ 10, Step.timerTick,
       Step.notification ⟨"/a/y.txt", fsnotify.Write⟩ 11,
       Step.notification ⟨"/b/z", fsnotify.Remove⟩ 12,
       Step.notification ⟨"/b/z", fsnotify.Chmod⟩ 13]).1⟩

end watcher

end FsTimeline

namespace FsTimeline

namespace sqlite

/-! ### The operator `LIKE` on a pattern that ends in `%` -/

/-- A `%` may consume nothing. -/
theorem anySuffix_self (f : List Char → Bool) (s : List Char) (h : f s = true) :
    anySuffix f s = true := by
  cases s with
  | nil => simpa [anySuffix] using h
  | cons c s => simp [anySuffix, h]

/-- A `%` may consume the whole string. -/
theorem anySuffix_nil (f : List Char → Bool) (s : List Char) (h : f [] = true) :
    anySuffix f s = true := by
  induction s with
  | nil => simpa [anySuffix] using h
  | cons c s ih => simp [anySuffix, ih]

/-- A string that begins with `d` matches the pattern `d%`, whatever
characters `d` holds. -/
theorem likeChars_of_prefix (d rest : List Char) :
    likeChars (d ++ ['%']) (d ++ rest) = true := by
  induction d with
  | nil =>
    simp only [List.nil_append, likeChars, if_true]
    exact anySuffix_nil _ _ rfl
  | cons p ps ih =>
    simp only [List.cons_append, likeChars]
    split
    · rename_i hp
      subst hp
      have h := anySuffix_self (likeChars (ps ++ ['%'])) (ps ++ rest) ih
      simp only [anySuffix, Bool.or_eq_true]
      exact Or.inr h
    · simp [ih]

end sqlite

namespace database

/-! ### The rows that `QueryEvents` returns -/

/-- The records returned are those of rows of the table that pass the `WHERE`
clause; without a limit every such row gives its record. -/
theorem mem_QueryEvents (rows : List Row) (filter : QueryFilter) :
    (∀ event : Event, event ∈ QueryEvents rows filter →
      ∃ row ∈ rows, row.event = event ∧ whereClause filter row = true) ∧
    (filter.Limit ≤ 0 → ∀ row ∈ rows, whereClause filter row = true →
      row.event ∈ QueryEvents rows filter) := by
  have hperm := List.perm_insertionSort
    (fun a b : Row => textLE b.timestamp.data a.timestamp.data = true)
    (rows.filter (whereClause filter)).reverse
  have hmem : ∀ row : Row,
      row ∈ (rows.filter (whereClause filter)).reverse.insertionSort
        (fun a b => textLE b.timestamp.data a.timestamp.data = true) ↔
      row ∈ rows ∧ whereClause filter row = true := by
    intro row
    rw [hperm.mem_iff, List.mem_reverse, List.mem_filter]
  unfold QueryEvents
  dsimp only
  constructor
  · intro event h
    obtain ⟨row, hrow, hev⟩ := List.mem_map.mp h
    have h1 : row ∈ (rows.filter (whereClause filter)).reverse.insertionSort
        (fun a b => textLE b.timestamp.data a.timestamp.data = true) := by
      split at hrow
      · exact List.mem_of_mem_take hrow
      · exact hrow
    exact ⟨row, ((hmem row).mp h1).1, hev, ((hmem row).mp h1).2⟩
  · intro hl row hm hw
    rw [if_neg (by omega)]
    exact List.mem_map.mpr ⟨row, (hmem row).mpr ⟨hm, hw⟩, rfl⟩

end database

end FsTimeline

namespace FsTimeline

namespace cmd

/-! ### The reversal of the query result -/

/-- Reading the element that follows a prefix. -/
theorem getElem?_after {α : Type} (a b : List α) (x : α) :
    (a ++ x :: b)[a.length]? = some x := by
  induction a with
  | nil => simp
  | cons c a ih => simpa using ih

/-- Writing the element that follows a prefix. -/
theorem set_after {α : Type} (a b : List α) (x y : α) :
    (a ++ x :: b).set a.length y = a ++ y :: b := by
  induction a with
  | nil => rfl
  | cons c a ih => simp [ih]

/-- The loop at `i = k - 1`, on a list whose first `k` and last `k` elements
are still to be swapped, mirrors those two blocks and leaves the middle as it
is; no index is out of range. -/
theorem reverseLoop_mirrors {α : Type} (k : Nat) (pre mid post : List α)
    (hpre : pre.length = k) (hpost : post.length = k) :
    reverseLoop k (pre ++ mid ++ post) = some (post.reverse ++ mid ++ pre.reverse) := by
  induction k generalizing pre mid post with
  | zero =>
    have h1 : pre = [] := List.length_eq_zero.mp hpre
    have h2 : post = [] := List.length_eq_zero.mp hpost
    subst h1 h2
    simp [reverseLoop]
  | succ k ih =>
    rcases List.eq_nil_or_concat pre with h | ⟨pre1, x, h⟩
    · subst h; simp at hpre
    subst h
    rw [List.concat_eq_append] at hpre ⊢
    cases post with
    | nil => simp at hpost
    | cons y post1 =>
      have hk : pre1.length = k := by simpa using hpre
      have hk2 : post1.length = k := by simpa using hpost
      have e1 : pre1 ++ [x] ++ mid ++ y :: post1 = pre1 ++ x :: (mid ++ y :: post1) := by simp
      have e2 : pre1 ++ y :: (mid ++ y :: post1) = (pre1 ++ y :: mid) ++ y :: post1 := by simp
      have hopp : ((pre1 ++ x :: (mid ++ y :: post1)).length : Int) - 1 - (k : Int) =
          (((pre1 ++ x :: mid).length : Nat) : Int) := by
        simp only [List.length_append, List.length_cons, hk, hk2]
        push_cast
        omega
      have hI : index (pre1 ++ x :: (mid ++ y :: post1)) (k : Int) = some x := by
        unfold index
        rw [if_neg (by omega), Int.toNat_ofNat, ← hk]
        exact getElem?_after pre1 _ x
      have hO : index (pre1 ++ x :: (mid ++ y :: post1))
          (((pre1 ++ x :: mid).length : Nat) : Int) = some y := by
        unfold index
        rw [if_neg (by omega), Int.toNat_ofNat]
        have : pre1 ++ x :: (mid ++ y :: post1) = (pre1 ++ x :: mid) ++ y :: post1 := by simp
        rw [this]
        exact getElem?_after _ post1 y
      rw [e1]
      unfold reverseLoop
      simp only [hopp, hI, hO, Int.toNat_ofNat]
      have hset : ((pre1 ++ x :: (mid ++ y :: post1)).set k y).set (pre1 ++ x :: mid).length x =
          pre1 ++ (y :: mid ++ [x]) ++ post1 := by
        rw [← hk, set_after, e2]
        have hl : (pre1 ++ x :: mid).length = (pre1 ++ y :: mid).length := by simp
        rw [hl, set_after]
        simp
      rw [hset, ih pre1 (y :: mid ++ [x]) post1 hk hk2]
      simp

/-- The statements under `// Reverse to show oldest first` reverse the list,
whatever its length, and no index is out of range. -/
theorem reverseEvents_reverse {α : Type} (events : List α) :
    reverseEvents events = some events.reverse := by
  unfold reverseEvents
  have hsplit : events =
      events.take (events.length / 2) ++
        (events.drop (events.length / 2)).take (events.length - 2 * (events.length / 2)) ++
        (events.drop (events.length / 2)).drop (events.length - 2 * (events.length / 2)) := by
    rw [List.append_assoc, List.take_append_drop, List.take_append_drop]
  have hmid : ((events.drop (events.length / 2)).take
      (events.length - 2 * (events.length / 2))).length ≤ 1 := by
    rw [List.length_take]
    omega
  have hrev : ((events.drop (events.length / 2)).take
      (events.length - 2 * (events.length / 2))).reverse =
      (events.drop (events.length / 2)).take (events.length - 2 * (events.length / 2)) := by
    generalize (events.drop (events.length / 2)).take
      (events.length - 2 * (events.length / 2)) = mid at hmid
    match mid, hmid with
    | [], _ => rfl
    | [_], _ => rfl
    | _ :: _ :: _, h => simp at h
  have hloop := reverseLoop_mirrors (events.length / 2)
    (events.take (events.length / 2))
    ((events.drop (events.length / 2)).take (events.length - 2 * (events.length / 2)))
    ((events.drop (events.length / 2)).drop (events.length - 2 * (events.length / 2)))
    (by rw [List.length_take]; omega)
    (by rw [List.length_drop, List.length_drop]; omega)
  rw [← hsplit] at hloop
  rw [hloop]
  conv_rhs => rw [hsplit]
  rw [List.reverse_append, List.reverse_append, hrev, List.append_assoc]

/-- Claim C12: the swap loop of `runQuery` and `runExport` turns every list,
of any length (0, 1 and odd lengths included), into its reverse, and no index
it uses is out of range.  So a list of events in descending order of
timestamp, as the query result is taken to be, comes out in ascending order,
oldest first, and that is the list rendered and exported. -/
theorem swap_loop_reverses :
    (∀ (α : Type) (events : List α), reverseEvents events = some events.reverse) ∧
    reverseEvents ([] : List Nat) = some [] ∧
    reverseEvents [7] = some [7] ∧
    reverseEvents [1, 2, 3] = some [3, 2, 1] ∧
    (∀ events : List database.Event,
      events.Pairwise (fun a b => a.Timestamp ≥ b.Timestamp) →
      ∃ out, reverseEvents events = some out ∧
        out.Pairwise (fun a b => a.Timestamp ≤ b.Timestamp)) := by
  refine ⟨fun α events => reverseEvents_reverse events, by decide, by decide, by decide,
    fun events hdesc => ⟨events.reverse, reverseEvents_reverse events, ?_⟩⟩
  rw [List.pairwise_reverse]
  exact hdesc

/-- Claim C12 at three events queried newest first (timestamps 12, 11, 10):
they come out of the loop oldest first. -/
theorem swap_loop_reverses_witness :
    ∃ out,
      reverseEvents
          [watcher.classify ⟨"/b/z", fsnotify.Remove⟩ 12,
           watcher.classify ⟨"/a/y.txt", fsnotify.Write⟩ 11,
           watcher.classify ⟨"/a/x.txt", fsnotify.Create⟩ 10] = some out ∧
      out.Pairwise (fun a b => a.Timestamp ≤ b.Timestamp) :=
  swap_loop_reverses.2.2.2.2
    [watcher.classify ⟨"/b/z", fsnotify.Remove⟩ 12,
     watcher.classify ⟨"/a/y.txt", fsnotify.Write⟩ 11,
     watcher.classify ⟨"/a/x.txt", fsnotify.Create⟩ 10]
    (by simp [watcher.classify])

end cmd

end FsTimeline

namespace FsTimeline

namespace database

/-! ### The directory filter and the file type filter -/

/-- Every row whose directory begins with the directory of the filter gives
its record (no other filter, no limit). -/
theorem QueryEvents_returns_prefixed (rows : List Row) (d : String) (row : Row)
    (hrow : row ∈ rows) (hpre : d.data <+: row.event.Directory.data) :
    row.event ∈ QueryEvents rows { Directory := d } := by
  refine (mem_QueryEvents rows { Directory := d }).2 (Int.le_refl 0) row hrow ?_
  obtain ⟨rest, hrest⟩ := hpre
  have hlike : sqlite.like row.event.Directory (d ++ "%") = true := by
    unfold sqlite.like
    rw [String.data_append, ← hrest]
    exact sqlite.likeChars_of_prefix d.data rest
  simp [whereClause, hlike]

/-- Claim C11, the code at three filters: `/a_c`, `%/logs` and `/A` select the
events stored under `/abc`, `/var/logs` and `/a` (whatever text their
timestamps are stored as), though none of these directories begins with the
value of the filter: `_` and `%` of the value act as wildcards of `LIKE`, and
ASCII letters match in either case. -/
theorem QueryEvents_directory_not_prefix :
    ((watcher.classify ⟨"/abc/x.txt", fsnotify.Create⟩ 10).Directory = "/abc" ∧
      ¬ ("/a_c".data <+: "/abc".data) ∧
      ∀ stored : String,
        QueryEvents [⟨stored, watcher.classify ⟨"/abc/x.txt", fsnotify.Create⟩ 10⟩]
            { Directory := "/a_c" } =
          [watcher.classify ⟨"/abc/x.txt", fsnotify.Create⟩ 10]) ∧
    ((watcher.classify ⟨"/var/logs/x.txt", fsnotify.Write⟩ 11).Directory = "/var/logs" ∧
      ¬ ("%/logs".data <+: "/var/logs".data) ∧
      ∀ stored : String,
        QueryEvents [⟨stored, watcher.classify ⟨"/var/logs/x.txt", fsnotify.Write⟩ 11⟩]
            { Directory := "%/logs" } =
          [watcher.classify ⟨"/var/logs/x.txt", fsnotify.Write⟩ 11]) ∧
    ((watcher.classify ⟨"/a/x.txt", fsnotify.Remove⟩ 12).Directory = "/a" ∧
      ¬ ("/A".data <+: "/a".data) ∧
      ∀ stored : String,
        QueryEvents [⟨stored, watcher.classify ⟨"/a/x.txt", fsnotify.Remove⟩ 12⟩]
            { Directory := "/A" } =
          [watcher.classify ⟨"/a/x.txt", fsnotify.Remove⟩ 12]) := by
  refine ⟨⟨by decide, by decide, fun stored => ?_⟩, ⟨by decide, by decide, fun stored => ?_⟩,
    ⟨by decide, by decide, fun stored => ?_⟩⟩
  · have h : sqlite.like (watcher.classify ⟨"/abc/x.txt", fsnotify.Create⟩ 10).Directory
        ("/a_c" ++ "%") = true := by decide
    simp [QueryEvents, whereClause, h]
  · have h : sqlite.like (watcher.classify ⟨"/var/logs/x.txt", fsnotify.Write⟩ 11).Directory
        ("%/logs" ++ "%") = true := by decide
    simp [QueryEvents, whereClause, h]
  · have h : sqlite.like (watcher.classify ⟨"/a/x.txt", fsnotify.Remove⟩ 12).Directory
        ("/A" ++ "%") = true := by decide
    simp [QueryEvents, whereClause, h]

/-- Claim C13, the code at the file name `z.`: `getFileType` returns the empty
string, as it does for every name that ends in a dot; the event of `/b/z.` is
stored with an empty file type, and a query whose file type filter is that
value applies no file type filter: it also returns the event of `/a/x.txt`,
stored a second later. -/
theorem getFileType_empty_on_trailing_dot :
    watcher.getFileType "z." = "" ∧
    (∀ stem : List Char, watcher.getFileType (String.mk (stem ++ ['.'])) = "") ∧
    (watcher.classify ⟨"/b/z.", fsnotify.Create⟩ 10).FileType = "" ∧
    QueryEvents
        [⟨"2026-11-01 19:26:10+00:00", watcher.classify ⟨"/b/z.", fsnotify.Create⟩ 10⟩,
         ⟨"2026-11-01 19:26:11+00:00", watcher.classify ⟨"/a/x.txt", fsnotify.Write⟩ 11⟩]
        { FileType := (watcher.classify ⟨"/b/z.", fsnotify.Create⟩ 10).FileType } =
      [watcher.classify ⟨"/a/x.txt", fsnotify.Write⟩ 11,
       watcher.classify ⟨"/b/z.", fsnotify.Create⟩ 10] := by
  refine ⟨by decide, fun stem => ?_, by decide, by decide⟩
  exact watcher.getFileType_suffix _ stem [] rfl (by simp) (by simp)

end database

end FsTimeline
